import Mathlib

/-! Field validators of `ibm/validators.go`

A shallow embedding of the validation functions of package `ibm`
(`src/ibm/validators.go`) together with theorems about the number and the
identity of the errors they return.

Modelling conventions

* A Go `string` is a sequence of bytes (`GoString`); `len` counts bytes.
  String literals of the source are written `lit "..."`, the UTF-8 encoding
  of the text.
* A Go `int` is modelled by `Int`: the validators only compare integers, they
  never do arithmetic on them, so the machine width plays no role.
* The `interface{}` argument is a `Value`, a string or an integer.  A failed
  type assertion `v.(T)` panics; a call therefore yields
  `Except Panic Result`.
* An `error` built by `fmt.Errorf(format, args...)` is kept unrendered, as the
  format string with its argument list (`GoError`).
* `net.ParseIP` and `net.ParseCIDR` belong to the Go standard library and are
  parameters of the validators that call them (`NetPkg`).  `GoNet.pkg` is the
  instance that follows package `net` of the Go standard library.
-/

namespace Ibm

/-! ## Go strings -/

/-- One byte of a Go string. -/
abbrev Byte := Fin 256

/-- A Go `string`: an immutable sequence of bytes. -/
abbrev GoString := List Byte

/-- The UTF-8 encoding of one Unicode scalar value. -/
def utf8EncodeChar (c : Char) : List Byte :=
  let v := c.toNat
  if v < 0x80 then
    [Fin.ofNat v]
  else if v < 0x800 then
    [Fin.ofNat (0xC0 + v / 0x40), Fin.ofNat (0x80 + v % 0x40)]
  else if v < 0x10000 then
    [Fin.ofNat (0xE0 + v / 0x1000), Fin.ofNat (0x80 + v / 0x40 % 0x40),
      Fin.ofNat (0x80 + v % 0x40)]
  else
    [Fin.ofNat (0xF0 + v / 0x40000), Fin.ofNat (0x80 + v / 0x1000 % 0x40),
      Fin.ofNat (0x80 + v / 0x40 % 0x40), Fin.ofNat (0x80 + v % 0x40)]

/-- The Go string denoted by a source literal: the UTF-8 bytes of its text. -/
def lit (s : String) : GoString :=
  s.data.flatMap utf8EncodeChar

/-- Go builtin `len` on a string: its number of bytes. -/
def len (s : GoString) : Nat :=
  s.length

/-- Go `strings.HasPrefix(s, pre)`:
`len(s) >= len(pre) && s[0:len(pre)] == pre`. -/
def HasPrefix (s pre : GoString) : Bool :=
  decide (len s ≥ len pre) && (s.take (len pre) == pre)

/-- The scan of Go `strings.Index(s, substr)` from offset `i` on, `s` being
the part of the string not yet scanned: the first offset at which `substr`
occurs, or `-1`. -/
def Index.scan (substr : GoString) : GoString → Nat → Int
  | [], i => if HasPrefix [] substr then (i : Int) else -1
  | c :: cs, i =>
    if HasPrefix (c :: cs) substr then (i : Int) else Index.scan substr cs (i + 1)

/-- Go `strings.Index(s, substr)`: the index of the first instance of `substr`
in `s`, or `-1` if `substr` is not present in `s`. -/
def Index (s substr : GoString) : Int :=
  Index.scan substr s 0

/-- Go `strings.Contains(s, substr)`: `Index(s, substr) >= 0`. -/
def Contains (s substr : GoString) : Bool :=
  decide (Index s substr ≥ 0)

/-- Go `strings.Join(elems, sep)`. -/
def Join : List GoString → GoString → GoString
  | [], _ => []
  | [e], _ => e
  | e :: es, sep => e ++ sep ++ Join es sep

/-! ## Values, errors and results -/

/-- The `interface{}` argument of a validator: the field value, a string or an
integer. -/
inductive Value where
  | str (s : GoString)
  | int (n : Int)
  deriving DecidableEq, Repr

/-- An operand of `fmt.Errorf`. -/
inductive FmtArg where
  | str (s : GoString)
  | int (n : Int)
  | strs (l : List GoString)
  | ints (l : List Int)
  deriving DecidableEq, Repr

/-- An `error` built by `fmt.Errorf`: the format string and its operands. -/
structure GoError where
  format : String
  args : List FmtArg
  deriving DecidableEq, Repr

/-- Go `fmt.Errorf(format, args...)`. -/
def Errorf (format : String) (args : List FmtArg) : GoError :=
  ⟨format, args⟩

/-- A run-time panic of a validator. -/
inductive Panic where
  /-- A type assertion `v.(T)` on a value whose dynamic type is not `T`. -/
  | typeAssertion
  deriving DecidableEq, Repr

/-- The named results `(ws []string, errors []error)` of a validator. -/
structure Result where
  ws : List GoString
  errors : List GoError
  deriving DecidableEq, Repr

/-- What a call of a validator yields: its results, or a panic. -/
abbrev Outcome := Except Panic Result

/-- Go `append(errors, e)`. -/
def append (errors : List GoError) (e : GoError) : List GoError :=
  errors ++ [e]

/-- The number of errors a call returned; `none` when it panicked. -/
def errorCount : Outcome → Option Nat
  | .ok r => some r.errors.length
  | .error _ => none

/-- The errors a call returned; `none` when it panicked. -/
def errorsOf : Outcome → Option (List GoError)
  | .ok r => some r.errors
  | .error _ => none

/-! ## The validators -/

/-- Go `validateServiceTags`. -/
def validateServiceTags (v : Value) (k : GoString) : Outcome :=
  match v with
  | .int _ => .error .typeAssertion
  | .str value =>
    let errors : List GoError := []
    let errors :=
      if len value > 2048 then
        append errors (Errorf
          "%q must contain tags whose maximum length is 2048 characters" [.str k])
      else errors
    .ok ⟨[], errors⟩

/-- The loop `for _, s := range validValues { if s == input { existed = true; break } }`
of `validateAllowedStringValue`: the value of `existed` after it. -/
def validateAllowedStringValue.loop (input : GoString) : List GoString → Bool
  | [] => false
  | s :: rest => if s = input then true else validateAllowedStringValue.loop input rest

/-- Go `validateAllowedStringValue`: the closure it returns, applied. -/
def validateAllowedStringValue (validValues : List GoString) (v : Value) (k : GoString) :
    Outcome :=
  match v with
  | .int _ => .error .typeAssertion
  | .str input =>
    let errors : List GoError := []
    let existed := validateAllowedStringValue.loop input validValues
    let errors :=
      if !existed then
        append errors (Errorf "%q must contain a value from %#v, got %q"
          [.str k, .strs validValues, .str input])
      else errors
    .ok ⟨[], errors⟩

/-- Go `validateRoutePath`. -/
def validateRoutePath (v : Value) (k : GoString) : Outcome :=
  match v with
  | .int _ => .error .typeAssertion
  | .str value =>
    let errors : List GoError := []
    -- Somehow API allows this
    if value = lit "" then
      .ok ⟨[], errors⟩
    else
      let errors :=
        if len value < 2 ∨ len value > 128 then
          append errors (Errorf "%q (%q) must contain from 2 to 128 characters "
            [.str k, .str value])
        else errors
      let errors :=
        if !(HasPrefix value (lit "/")) then
          append errors (Errorf "%q (%q) must start with a forward slash '/'"
            [.str k, .str value])
        else errors
      let errors :=
        if Contains value (lit "?") then
          append errors (Errorf "%q (%q) must not contain a '?'" [.str k, .str value])
        else errors
      .ok ⟨[], errors⟩

/-- Go `validatePortRange`: the closure it returns, applied. -/
def validatePortRange (start end_ : Int) (v : Value) (k : GoString) : Outcome :=
  match v with
  | .str _ => .error .typeAssertion
  | .int value =>
    let errors : List GoError := []
    let errors :=
      if value < start ∨ value > end_ then
        append errors (Errorf "%q (%d) must be in the range of %d to %d"
          [.str k, .int value, .int start, .int end_])
      else errors
    .ok ⟨[], errors⟩

/-- Go `validateRoutePort`. -/
def validateRoutePort (v : Value) (k : GoString) : Outcome :=
  validatePortRange 1024 65535 v k

/-- Go `validateAppPort`. -/
def validateAppPort (v : Value) (k : GoString) : Outcome :=
  validatePortRange 1024 65535 v k

/-- Go `validateDomainName`. -/
def validateDomainName (v : Value) (k : GoString) : Outcome :=
  match v with
  | .int _ => .error .typeAssertion
  | .str value =>
    let errors : List GoError := []
    let errors :=
      if !(Contains value (lit ".")) then
        append errors (Errorf "%q (%q) must contain a '.',example.com,foo.example.com"
          [.str k, .str value])
      else errors
    .ok ⟨[], errors⟩

/-- Go `validateAppInstance`. -/
def validateAppInstance (v : Value) (k : GoString) : Outcome :=
  match v with
  | .str _ => .error .typeAssertion
  | .int instances =>
    let errors : List GoError := []
    let errors :=
      if instances < 0 then
        append errors (Errorf "%q (%q) must be greater than 0" [.str k, .int instances])
      else errors
    .ok ⟨[], errors⟩

/-- The two library functions `validateAppZipPath` calls: `homedir.Expand` of
`github.com/mitchellh/go-homedir`, which returns the expanded path and whether
it failed, and `helpers.FileExists` of `bluemix-go`. -/
structure FsPkg where
  Expand : GoString → GoString × Bool
  FileExists : GoString → Bool

/-- Go `validateAppZipPath`. -/
def validateAppZipPath (fs : FsPkg) (v : Value) (k : GoString) : Outcome :=
  match v with
  | .int _ => .error .typeAssertion
  | .str path =>
    let errors : List GoError := []
    let (applicationZip, failed) := fs.Expand path
    let errors :=
      if failed then
        append errors (Errorf
          "%q (%q) home directory in the given path couldn't be expanded"
          [.str k, .str path])
      else errors
    let errors :=
      if !(fs.FileExists applicationZip) then
        append errors (Errorf "%q (%q) doesn't exist" [.str k, .str path])
      else errors
    .ok ⟨[], errors⟩

/-- Go `validateNotes`. -/
def validateNotes (v : Value) (k : GoString) : Outcome :=
  match v with
  | .int _ => .error .typeAssertion
  | .str value =>
    let errors : List GoError := []
    let errors :=
      if len value > 1000 then
        append errors (Errorf "%q should not exceed 1000 characters" [.str k])
      else errors
    .ok ⟨[], errors⟩

/-- The loop `for _, b := range validBandwidths { if b == bandwidth { return } }`
of `validatePublicBandwidth`: whether it returned from the function. -/
def validatePublicBandwidth.loop (bandwidth : Int) : List Int → Bool
  | [] => false
  | b :: rest => if b = bandwidth then true else validatePublicBandwidth.loop bandwidth rest

/-- Go `validatePublicBandwidth`. -/
def validatePublicBandwidth (v : Value) (k : GoString) : Outcome :=
  match v with
  | .str _ => .error .typeAssertion
  | .int bandwidth =>
    let errors : List GoError := []
    if bandwidth < 0 then
      let errors :=
        append errors (Errorf "%q (%q) must be greater than 0" [.str k, .int bandwidth])
      .ok ⟨[], errors⟩
    else
      let validBandwidths : List Int := [250, 1000, 5000, 10000, 20000]
      if validatePublicBandwidth.loop bandwidth validBandwidths then
        .ok ⟨[], errors⟩
      else
        let errors :=
          append errors (Errorf "%q (%d) must be one of the value from %d"
            [.str k, .int bandwidth, .ints validBandwidths])
        .ok ⟨[], errors⟩

/-- Go `validateMaxConn`. -/
def validateMaxConn (v : Value) (k : GoString) : Outcome :=
  match v with
  | .str _ => .error .typeAssertion
  | .int maxConn =>
    let errors : List GoError := []
    if maxConn < 1 ∨ maxConn > 64000 then
      let errors := append errors (Errorf "%q must be between 1 and 64000" [.str k])
      .ok ⟨[], errors⟩
    else
      .ok ⟨[], errors⟩

/-- Go `validateWeight`. -/
def validateWeight (v : Value) (k : GoString) : Outcome :=
  match v with
  | .str _ => .error .typeAssertion
  | .int weight =>
    let errors : List GoError := []
    let errors :=
      if weight < 0 ∨ weight > 100 then
        append errors (Errorf "%q must be between 1 and 100" [.str k])
      else errors
    .ok ⟨[], errors⟩

/-! ### Maps

A Go `map[string]bool` literal is kept as its list of entries.  Go leaves the
order of `for key := range m` unspecified; the model visits the entries in the
order of the literal.  Only the text of an error message depends on it. -/

/-- A Go `map[string]bool` given by a literal. -/
abbrev GoMap := List (GoString × Bool)

/-- Go `value, found := m[key]`. -/
def GoMap.lookup : GoMap → GoString → Bool × Bool
  | [], _ => (false, false)
  | (key, value) :: rest, wanted =>
    if key = wanted then (value, true) else GoMap.lookup rest wanted

/-- The loop `for key := range m { strarray = append(strarray, key) }`. -/
def GoMap.keys : GoMap → List GoString
  | [] => []
  | (key, _) :: rest => key :: GoMap.keys rest

/-- Go `validateSecurityRuleDirection`. -/
def validateSecurityRuleDirection (v : Value) (k : GoString) : Outcome :=
  let validDirections : GoMap := [(lit "ingress", true), (lit "egress", true)]
  match v with
  | .int _ => .error .typeAssertion
  | .str value =>
    let errors : List GoError := []
    let (_, found) := validDirections.lookup value
    let errors :=
      if !found then
        let strarray := validDirections.keys
        append errors (Errorf
          "%q contains an invalid security group rule direction %q. Valid types are %q."
          [.str k, .str value, .str (Join strarray (lit ","))])
      else errors
    .ok ⟨[], errors⟩

/-- Go `validateSecurityRuleEtherType`. -/
def validateSecurityRuleEtherType (v : Value) (k : GoString) : Outcome :=
  let validEtherTypes : GoMap := [(lit "IPv4", true), (lit "IPv6", true)]
  match v with
  | .int _ => .error .typeAssertion
  | .str value =>
    let errors : List GoError := []
    let (_, found) := validEtherTypes.lookup value
    let errors :=
      if !found then
        let strarray := validEtherTypes.keys
        append errors (Errorf
          "%q contains an invalid security group rule ethernet type %q. Valid types are %q."
          [.str k, .str value, .str (Join strarray (lit ","))])
      else errors
    .ok ⟨[], errors⟩

/-! ### Addresses -/

/-- Go `net.IP`, a slice of bytes. -/
abbrev IP := List Byte

/-- Go `net.IPNet`. -/
structure IPNet where
  IP : IP
  Mask : List Byte
  deriving DecidableEq, Repr

/-- The two functions of the Go standard library package `net` the validators
call.  `ParseIP` returns `none` for Go's `nil`; `ParseCIDR` returns
`Except.error` when its `error` result is not `nil`. -/
structure NetPkg where
  ParseIP : GoString → Option IP
  ParseCIDR : GoString → Except String (IP × IPNet)

/-- Go `validateIP`. -/
def validateIP (net : NetPkg) (v : Value) (k : GoString) : Outcome :=
  match v with
  | .int _ => .error .typeAssertion
  | .str address =>
    let errors : List GoError := []
    let errors :=
      if net.ParseIP address = none then
        append errors (Errorf "%q must be a valid ip address" [.str k])
      else errors
    .ok ⟨[], errors⟩

/-- Go `validateCIDR`. -/
def validateCIDR (net : NetPkg) (v : Value) (k : GoString) : Outcome :=
  match v with
  | .int _ => .error .typeAssertion
  | .str address =>
    let errors : List GoError := []
    let errors :=
      match net.ParseCIDR address with
      | .error _ =>
        append errors (Errorf "%q must be a valid cidr address" [.str k])
      | .ok _ => errors
    .ok ⟨[], errors⟩

/-- Go `validateRemoteIP`. -/
def validateRemoteIP (net : NetPkg) (v : Value) (k : GoString) : Outcome :=
  match validateCIDR net v k with
  | .error p => .error p
  | .ok ⟨_, err1⟩ =>
    match validateIP net v k with
    | .error p => .error p
    | .ok ⟨_, err2⟩ =>
      let errors : List GoError := []
      let errors :=
        if err1.length ≠ 0 ∧ err2.length ≠ 0 then
          append errors (Errorf "%q must be a valid remote ip address (cidr or ip)"
            [.str k])
        else errors
      .ok ⟨[], errors⟩

/-- Go `validateSecurityRuleProtocol`. -/
def validateSecurityRuleProtocol (v : Value) (k : GoString) : Outcome :=
  let validProtocols : GoMap := [(lit "icmp", true), (lit "tcp", true), (lit "udp", true)]
  match v with
  | .int _ => .error .typeAssertion
  | .str value =>
    let errors : List GoError := []
    let (_, found) := validProtocols.lookup value
    let errors :=
      if !found then
        let strarray := validProtocols.keys
        append errors (Errorf
          "%q contains an invalid security group rule ethernet type %q. Valid types are %q."
          [.str k, .str value, .str (Join strarray (lit ","))])
      else errors
    .ok ⟨[], errors⟩


/-! ### The parsers of Go's package `net`

`net.ParseIP` and `net.ParseCIDR` are functions of the Go standard library; the
repository does not contain them.  The definitions below follow package `net`
for the dotted-decimal IPv4 form; the IPv6 parser `parseIPv6` stays a
parameter. -/

namespace GoNet

/-- Go `net.big`, the bound of `dtoi`. -/
def big : Nat := 0xFFFFFF

/-- The loop of Go `net.dtoi` on the bytes not yet read, with the number `n`
read so far and the count `i` of bytes consumed. -/
def dtoi.loop : GoString → Nat → Nat → Nat × Nat × Bool
  | [], n, i => if i = 0 then (0, 0, false) else (n, i, true)
  | c :: cs, n, i =>
    if 48 ≤ c.val ∧ c.val ≤ 57 then
      let n := n * 10 + (c.val - 48)
      if n ≥ big then (big, i, false) else dtoi.loop cs n (i + 1)
    else if i = 0 then (0, 0, false) else (n, i, true)

/-- Go `net.dtoi(s)`: decimal to integer; returns the number, the count of bytes
consumed and whether it succeeded. -/
def dtoi (s : GoString) : Nat × Nat × Bool :=
  dtoi.loop s 0 0

/-- Go `net.v4InV6Prefix`. -/
def v4InV6Prefix : List Byte :=
  [0, 0, 0, 0, 0, 0, 0, 0, 0, 0, 0xff, 0xff]

/-- Go `net.IPv4(a, b, c, d)`: the 16-byte form of an IPv4 address. -/
def IPv4 (a b c d : Byte) : IP :=
  v4InV6Prefix ++ [a, b, c, d]

/-- The loop `for i := 0; i < IPv4len; i++` of Go `net.parseIPv4`, with `todo`
rounds left: the rest of the string and the octets read, or `none` where the
function returns `nil`. -/
def parseIPv4.loop : Nat → Nat → GoString → List Byte → Option (GoString × List Byte)
  | 0, _, s, p => some (s, p)
  | todo + 1, i, s, p =>
    if len s = 0 then
      -- Missing octets.
      none
    else
      let afterDot : Option GoString :=
        if i > 0 then
          match s with
          | [] => none
          | c :: rest => if c ≠ 46 then none else some rest
        else some s
      match afterDot with
      | none => none
      | some s =>
        let (n, c, ok) := dtoi s
        if !ok ∨ n > 0xFF then none
        else parseIPv4.loop todo (i + 1) (s.drop c) (p ++ [Fin.ofNat n])

/-- Modelled from the spec: `net.parseIPv4` of the Go standard library is not
under `src/`; the spec says that the string "parses as a valid IPv4/IPv6
address".  The model is the dotted-decimal parser of package `net`: four
decimal octets, each at most 255, separated by ".". -/
def parseIPv4 (s : GoString) : Option IP :=
  match parseIPv4.loop 4 0 s [] with
  | some ([], [a, b, c, d]) => some (IPv4 a b c d)
  | _ => none

/-- The loop of Go `net.ParseIP(s)` over the bytes not yet seen: the first "."
sends the whole string to `parseIPv4`, the first ":" to `parseIPv6`. -/
def ParseIP.loop (parseIPv6 : GoString → Bool → Option IP × GoString) (s : GoString) :
    GoString → Option IP
  | [] => none
  | c :: cs =>
    if c = 46 then parseIPv4 s
    else if c = 58 then (parseIPv6 s false).1
    else ParseIP.loop parseIPv6 s cs

/-- Modelled from the spec: `net.ParseIP` of the Go standard library is not under
`src/`; the spec says that the string "parses as a valid IPv4/IPv6 address".
The model follows package `net`; `none` is Go's `nil`. -/
def ParseIP (parseIPv6 : GoString → Bool → Option IP × GoString) (s : GoString) :
    Option IP :=
  ParseIP.loop parseIPv6 s s

/-- Go `net.byteIndex(s, c)`: the index of the first `c` in `s`, or `-1`. -/
def byteIndex.loop (c : Byte) : GoString → Nat → Int
  | [], _ => -1
  | b :: bs, i => if b = c then (i : Int) else byteIndex.loop c bs (i + 1)

/-- Go `net.byteIndex(s, c)`. -/
def byteIndex (s : GoString) (c : Byte) : Int :=
  byteIndex.loop c s 0

/-- The loop of Go `net.CIDRMask` with `l` bytes left to fill and `n` one-bits
left to place. -/
def CIDRMask.loop : Nat → Nat → List Byte
  | 0, _ => []
  | l + 1, n =>
    if n ≥ 8 then 0xff :: CIDRMask.loop l (n - 8)
    else Fin.ofNat (255 - 255 / 2 ^ n) :: CIDRMask.loop l 0

/-- Go `net.CIDRMask(ones, bits)`; `none` is Go's `nil`. -/
def CIDRMask (ones bits : Nat) : Option (List Byte) :=
  if bits ≠ 8 * 4 ∧ bits ≠ 8 * 16 then none
  else if ones > bits then none
  else some (CIDRMask.loop (bits / 8) ones)

/-- Go `ip.Mask(mask)`; `none` is Go's `nil`. -/
def Mask (ip : IP) (mask : List Byte) : Option IP :=
  let mask :=
    if len mask = 16 ∧ len ip = 4 ∧ mask.take 12 = List.replicate 12 0xff then mask.drop 12
    else mask
  let ip :=
    if len mask = 4 ∧ len ip = 16 ∧ ip.take 12 = v4InV6Prefix then ip.drop 12 else ip
  if len ip ≠ len mask then none
  else some (List.zipWith (fun a b => Fin.ofNat (Nat.land a.val b.val)) ip mask)

/-- Modelled from the spec: `net.ParseCIDR` of the Go standard library is not
under `src/`; the spec says that the string "parses as a valid CIDR block".
The model follows package `net`: an address, "/", and a decimal prefix length
of at most 32 bits for IPv4 and 128 for IPv6. -/
def ParseCIDR (parseIPv6 : GoString → Bool → Option IP × GoString) (s : GoString) :
    Except String (IP × IPNet) :=
  let i := byteIndex s 47
  if i < 0 then
    .error "invalid CIDR address"
  else
    let addr := s.take i.toNat
    let mask := s.drop (i.toNat + 1)
    let (ip, iplen) : Option IP × Nat :=
      match parseIPv4 addr with
      | some ip => (some ip, 4)
      | none => ((parseIPv6 addr false).1, 16)
    let (n, i, ok) := dtoi mask
    match ip with
    | none => .error "invalid CIDR address"
    | some ip =>
      if !ok ∨ i ≠ len mask ∨ n > 8 * iplen then
        .error "invalid CIDR address"
      else
        match CIDRMask n (8 * iplen) with
        | none => .error "invalid CIDR address"
        | some m => .ok (ip, ⟨(Mask ip m).getD [], m⟩)

/-- Package `net` as the validators use it, given its IPv6 parser. -/
def pkg (parseIPv6 : GoString → Bool → Option IP × GoString) : NetPkg :=
  ⟨ParseIP parseIPv6, ParseCIDR parseIPv6⟩

end GoNet

/-! ## The library functions meet their documentation -/

theorem HasPrefix_iff (s pre : GoString) : HasPrefix s pre = true ↔ pre <+: s := by
  unfold HasPrefix len
  rw [List.prefix_iff_eq_take]
  constructor
  · intro h
    simp only [Bool.and_eq_true, decide_eq_true_eq, beq_iff_eq] at h
    exact h.2.symm
  · intro h
    simp only [Bool.and_eq_true, decide_eq_true_eq, beq_iff_eq]
    refine ⟨?_, h.symm⟩
    have hl := congrArg List.length h
    rw [List.length_take] at hl
    omega

theorem Index_scan_nonneg_iff (substr s : GoString) (i : Nat) :
    0 ≤ Index.scan substr s i ↔ substr <:+: s := by
  induction s generalizing i with
  | nil =>
    unfold Index.scan
    by_cases h : HasPrefix [] substr = true
    · have hp := (HasPrefix_iff [] substr).1 h
      simp only [h, if_true]
      exact ⟨fun _ => hp.isInfix, fun _ => Int.natCast_nonneg i⟩
    · have hp : ¬ substr <+: [] := fun hp => h ((HasPrefix_iff [] substr).2 hp)
      simp only [h]
      simp only [List.prefix_nil] at hp
      simp [hp]
  | cons c cs ih =>
    unfold Index.scan
    rw [List.infix_cons_iff]
    by_cases h : HasPrefix (c :: cs) substr = true
    · have hp := (HasPrefix_iff (c :: cs) substr).1 h
      simp only [h, if_true]
      exact ⟨fun _ => Or.inl hp, fun _ => Int.natCast_nonneg i⟩
    · have hp : ¬ substr <+: c :: cs := fun hp => h ((HasPrefix_iff (c :: cs) substr).2 hp)
      simp only [h]
      rw [if_neg (by simp), ih (i + 1)]
      exact ⟨Or.inr, fun hh => hh.resolve_left hp⟩

theorem Contains_iff (s substr : GoString) : Contains s substr = true ↔ substr <:+: s := by
  unfold Contains Index
  rw [decide_eq_true_eq]
  exact Index_scan_nonneg_iff substr s 0

theorem allowed_loop_iff (input : GoString) (l : List GoString) :
    validateAllowedStringValue.loop input l = true ↔ input ∈ l := by
  induction l with
  | nil => simp [validateAllowedStringValue.loop]
  | cons s rest ih =>
    unfold validateAllowedStringValue.loop
    by_cases h : s = input
    · simp [h]
    · have h2 : ¬ input = s := fun e => h e.symm
      simp [h, h2, ih]

theorem bandwidth_loop_iff (bandwidth : Int) (l : List Int) :
    validatePublicBandwidth.loop bandwidth l = true ↔ bandwidth ∈ l := by
  induction l with
  | nil => simp [validatePublicBandwidth.loop]
  | cons b rest ih =>
    unfold validatePublicBandwidth.loop
    by_cases h : b = bandwidth
    · simp [h]
    · have h2 : ¬ bandwidth = b := fun e => h e.symm
      simp [h, h2, ih]

theorem GoMap_lookup_found_iff (m : GoMap) (key : GoString) :
    (m.lookup key).2 = true ↔ key ∈ m.keys := by
  induction m with
  | nil => simp [GoMap.lookup, GoMap.keys]
  | cons e rest ih =>
    obtain ⟨k1, b⟩ := e
    unfold GoMap.lookup GoMap.keys
    by_cases h : k1 = key
    · simp [h]
    · have h2 : ¬ key = k1 := fun e => h e.symm
      simp [h, h2, ih]

/-! ## Integer ranges -/

/-- Claim C1: for all integers `start`, `end` and `value` and every key `k`,
`validatePortRange(start, end)(value, k)` returns no error when
`start <= value <= end`, both bounds inclusive, and exactly one error
otherwise. -/
theorem validatePortRange_errorCount (start end_ value : Int) (k : GoString) :
    errorCount (validatePortRange start end_ (.int value) k)
      = some (if start ≤ value ∧ value ≤ end_ then 0 else 1) := by
  unfold validatePortRange
  by_cases h : value < start ∨ value > end_
  · have h2 : ¬ (start ≤ value ∧ value ≤ end_) := by omega
    simp [h, h2, errorCount, append]
  · have h2 : start ≤ value ∧ value ≤ end_ := by omega
    simp [h, h2, errorCount]

/-- Claim C2: for every integer `value` and key `k`, `validateRoutePort` and
`validateAppPort` return the same result, with no error exactly when
`1024 <= value <= 65535` and exactly one error otherwise; 1023 and 65536 are
rejected, 1024 and 65535 accepted. -/
theorem validateRoutePort_validateAppPort (value : Int) (k : GoString) :
    validateRoutePort (.int value) k = validateAppPort (.int value) k
    ∧ (errorCount (validateRoutePort (.int value) k) = some 0
        ↔ 1024 ≤ value ∧ value ≤ 65535)
    ∧ errorCount (validateRoutePort (.int value) k)
        = some (if 1024 ≤ value ∧ value ≤ 65535 then 0 else 1)
    ∧ errorCount (validateAppPort (.int value) k)
        = some (if 1024 ≤ value ∧ value ≤ 65535 then 0 else 1)
    ∧ errorCount (validateRoutePort (.int 1023) k) = some 1
    ∧ errorCount (validateRoutePort (.int 65536) k) = some 1
    ∧ errorCount (validateRoutePort (.int 1024) k) = some 0
    ∧ errorCount (validateRoutePort (.int 65535) k) = some 0 := by
  have hc : ∀ n : Int, errorCount (validateRoutePort (.int n) k)
      = some (if 1024 ≤ n ∧ n ≤ 65535 then 0 else 1) := by
    intro n
    unfold validateRoutePort validatePortRange
    by_cases h : n < 1024 ∨ n > 65535
    · have h2 : ¬ (1024 ≤ n ∧ n ≤ 65535) := by omega
      simp [h, h2, errorCount, append]
    · have h2 : 1024 ≤ n ∧ n ≤ 65535 := by omega
      simp [h, h2, errorCount]
  refine ⟨rfl, ?_, hc value, hc value, ?_, ?_, ?_, ?_⟩
  · rw [hc value]
    by_cases h : 1024 ≤ value ∧ value ≤ 65535 <;> simp [h]
  · rw [hc]; decide
  · rw [hc]; decide
  · rw [hc]; decide
  · rw [hc]; decide

/-- Claim C3: for every integer `b` and key `k`, `validatePublicBandwidth(b, k)`
returns no error if and only if `b` is one of 250, 1000, 5000, 10000, 20000,
and exactly one error for every other integer; for a negative `b` that one
error is the error of the range check, which returns before the set check. -/
theorem validatePublicBandwidth_errors (b : Int) (k : GoString) :
    (errorCount (validatePublicBandwidth (.int b) k) = some 0
        ↔ b = 250 ∨ b = 1000 ∨ b = 5000 ∨ b = 10000 ∨ b = 20000)
    ∧ errorCount (validatePublicBandwidth (.int b) k)
        = some (if b = 250 ∨ b = 1000 ∨ b = 5000 ∨ b = 10000 ∨ b = 20000 then 0 else 1)
    ∧ (b < 0 → errorsOf (validatePublicBandwidth (.int b) k)
        = some [Errorf "%q (%q) must be greater than 0" [.str k, .int b]]) := by
  have hmem : validatePublicBandwidth.loop b [250, 1000, 5000, 10000, 20000] = true
      ↔ b = 250 ∨ b = 1000 ∨ b = 5000 ∨ b = 10000 ∨ b = 20000 := by
    rw [bandwidth_loop_iff]; simp
  have hc : errorCount (validatePublicBandwidth (.int b) k)
      = some (if b = 250 ∨ b = 1000 ∨ b = 5000 ∨ b = 10000 ∨ b = 20000 then 0 else 1) := by
    unfold validatePublicBandwidth
    by_cases hneg : b < 0
    · have h2 : ¬ (b = 250 ∨ b = 1000 ∨ b = 5000 ∨ b = 10000 ∨ b = 20000) := by omega
      simp [hneg, h2, errorCount, append]
    · by_cases hin : b = 250 ∨ b = 1000 ∨ b = 5000 ∨ b = 10000 ∨ b = 20000
      · simp only [hneg, if_false, hmem.2 hin, if_true, hin, errorCount, List.length_nil]
      · have hl : ¬ validatePublicBandwidth.loop b [250, 1000, 5000, 10000, 20000] = true :=
          fun hh => hin (hmem.1 hh)
        simp [hneg, hl, hin, errorCount, append]
  refine ⟨?_, hc, ?_⟩
  · rw [hc]
    by_cases hin : b = 250 ∨ b = 1000 ∨ b = 5000 ∨ b = 10000 ∨ b = 20000 <;> simp [hin]
  · intro hneg
    unfold validatePublicBandwidth
    simp [hneg, errorsOf, append]

/-- Claim C10: for every integer `w` and key `k`, `validateWeight(w, k)` returns
no error when `0 <= w <= 100` and exactly one error otherwise; 0 and 100 are
accepted, -1 and 101 are rejected. -/
theorem validateWeight_errorCount (w : Int) (k : GoString) :
    errorCount (validateWeight (.int w) k) = some (if 0 ≤ w ∧ w ≤ 100 then 0 else 1)
    ∧ errorCount (validateWeight (.int 0) k) = some 0
    ∧ errorCount (validateWeight (.int 100) k) = some 0
    ∧ errorCount (validateWeight (.int (-1)) k) = some 1
    ∧ errorCount (validateWeight (.int 101) k) = some 1 := by
  have hc : ∀ n : Int, errorCount (validateWeight (.int n) k)
      = some (if 0 ≤ n ∧ n ≤ 100 then 0 else 1) := by
    intro n
    unfold validateWeight
    by_cases h : n < 0 ∨ n > 100
    · have h2 : ¬ (0 ≤ n ∧ n ≤ 100) := by omega
      simp [h, h2, errorCount, append]
    · have h2 : 0 ≤ n ∧ n ≤ 100 := by omega
      simp [h, h2, errorCount]
  refine ⟨hc w, ?_, ?_, ?_, ?_⟩
  · rw [hc]; decide
  · rw [hc]; decide
  · rw [hc]; decide
  · rw [hc]; decide

/-! ## Route paths -/

theorem validateRoutePath_errors (value k : GoString) :
    errorsOf (validateRoutePath (.str value) k)
      = some (if value = [] then []
          else
            ((if len value < 2 ∨ len value > 128 then
                [Errorf "%q (%q) must contain from 2 to 128 characters "
                  [.str k, .str value]] else [])
              ++ (if lit "/" <+: value then []
                else [Errorf "%q (%q) must start with a forward slash '/'"
                  [.str k, .str value]])
              ++ (if lit "?" <:+: value then
                [Errorf "%q (%q) must not contain a '?'" [.str k, .str value]]
                else []))) := by
  have hempty : lit "" = ([] : GoString) := rfl
  unfold validateRoutePath
  simp only [hempty]
  by_cases h0 : value = []
  · simp [h0, errorsOf]
  · simp only [h0, if_false, errorsOf, append, Option.some.injEq]
    by_cases h1 : len value < 2 ∨ len value > 128 <;>
    by_cases h2 : lit "/" <+: value <;>
    by_cases h3 : lit "?" <:+: value <;>
    simp [h1, h2, h3, (HasPrefix_iff value (lit "/")).2, (Contains_iff value (lit "?")).2,
      mt (HasPrefix_iff value (lit "/")).1, mt (Contains_iff value (lit "?")).1]

theorem errorCount_eq_length (o : Outcome) (es : List GoError) (h : errorsOf o = some es) :
    errorCount o = some es.length := by
  cases o with
  | error p => simp [errorsOf] at h
  | ok r =>
    simp only [errorsOf, Option.some.injEq] at h
    simp [errorCount, h]

/-- Claim C4: for every string `value` and key `k`, `validateRoutePath(value, k)`
returns no error if and only if `value` is empty, or its length is between 2
and 128 inclusive, it starts with "/" and it does not contain "?"; the empty
string gives no error and "/x?y" gives exactly one. -/
theorem validateRoutePath_accepts_iff (value k : GoString) :
    (errorCount (validateRoutePath (.str value) k) = some 0
        ↔ value = []
          ∨ (2 ≤ len value ∧ len value ≤ 128
              ∧ (∃ rest, value = lit "/" ++ rest)
              ∧ ¬ ∃ before after, value = before ++ lit "?" ++ after))
    ∧ errorCount (validateRoutePath (.str (lit "")) k) = some 0
    ∧ errorCount (validateRoutePath (.str (lit "/x?y")) k) = some 1 := by
  refine ⟨?_, rfl, rfl⟩
  have hpre : (∃ rest, value = lit "/" ++ rest) ↔ lit "/" <+: value :=
    ⟨fun ⟨r, hr⟩ => ⟨r, hr.symm⟩, fun ⟨r, hr⟩ => ⟨r, hr.symm⟩⟩
  have hinf : (∃ before after, value = before ++ lit "?" ++ after) ↔ lit "?" <:+: value :=
    ⟨fun ⟨a, b, hr⟩ => ⟨a, b, hr.symm⟩, fun ⟨a, b, hr⟩ => ⟨a, b, hr.symm⟩⟩
  rw [errorCount_eq_length _ _ (validateRoutePath_errors value k), hpre, hinf]
  by_cases h0 : value = []
  · simp [h0]
  · by_cases h1 : len value < 2 ∨ len value > 128
    · have h1n : ¬ (2 ≤ len value ∧ len value ≤ 128 ∧ lit "/" <+: value
          ∧ ¬ lit "?" <:+: value) := by
        intro hh; omega
      simp only [h0, if_false, h1, if_true, false_or, h1n, iff_false]
      simp
    · have h1a : 2 ≤ len value := by omega
      have h1b : len value ≤ 128 := by omega
      by_cases h2 : lit "/" <+: value <;> by_cases h3 : lit "?" <:+: value <;>
        simp [h0, h1, h1a, h1b, h2, h3]

/-- Claim C5, counterexample: with the key "path", `validateRoutePath("ab", k)`
returns one error, not none, so it is not true that it returns no errors for
every key. -/
theorem validateRoutePath_ab_not_accepted :
    errorCount (validateRoutePath (.str (lit "ab")) (lit "path")) = some 1
    ∧ ¬ ∀ k : GoString, errorCount (validateRoutePath (.str (lit "ab")) k) = some 0 := by
  refine ⟨rfl, fun h => ?_⟩
  have h1 := h (lit "path")
  revert h1
  decide

/-- Claim C5, amended: for every key `k`, `validateRoutePath("ab", k)` returns
exactly one error, the one saying that the value must start with a forward
slash, and no warning. -/
theorem validateRoutePath_ab (k : GoString) :
    validateRoutePath (.str (lit "ab")) k
      = .ok ⟨[], [Errorf "%q (%q) must start with a forward slash '/'"
          [.str k, .str (lit "ab")]]⟩ := by
  rfl

/-- Claim C6, counterexample: with the key "path", `validateRoutePath("a", k)`
returns two errors, so it is not true that it returns exactly one error for
every key. -/
theorem validateRoutePath_a_not_one_error :
    errorCount (validateRoutePath (.str (lit "a")) (lit "path")) = some 2
    ∧ ¬ ∀ k : GoString, errorCount (validateRoutePath (.str (lit "a")) k) = some 1 := by
  refine ⟨rfl, fun h => ?_⟩
  have h1 := h (lit "path")
  revert h1
  decide

/-- Claim C6, amended: for every key `k`, `validateRoutePath("a", k)` returns
exactly two errors, the too-short error followed by the one saying that the
value must start with a forward slash, and no warning. -/
theorem validateRoutePath_a (k : GoString) :
    validateRoutePath (.str (lit "a")) k
      = .ok ⟨[], [Errorf "%q (%q) must contain from 2 to 128 characters "
            [.str k, .str (lit "a")],
          Errorf "%q (%q) must start with a forward slash '/'"
            [.str k, .str (lit "a")]]⟩ := by
  rfl

/-! ## Addresses -/

theorem validateIP_errors (net : NetPkg) (value k : GoString) :
    validateIP net (.str value) k
      = .ok ⟨[], if net.ParseIP value = none then
          [Errorf "%q must be a valid ip address" [.str k]] else []⟩ := by
  unfold validateIP
  by_cases h : net.ParseIP value = none <;> simp [h, append]

theorem validateCIDR_errors (net : NetPkg) (value k : GoString) :
    validateCIDR net (.str value) k
      = .ok ⟨[], if (net.ParseCIDR value).isOk then []
          else [Errorf "%q must be a valid cidr address" [.str k]]⟩ := by
  unfold validateCIDR
  cases h : net.ParseCIDR value <;> simp [h, append, Except.isOk, Except.toBool]

/-- Claim C7: for every string `value` and key `k`, whatever `net.ParseIP` and
`net.ParseCIDR` are, `validateRemoteIP(value, k)` returns exactly one error when
both `validateCIDR(value, k)` and `validateIP(value, k)` return an error, and no
error otherwise; so a value accepted by `validateIP` or by `validateCIDR` is
accepted by `validateRemoteIP`, and no error of the two sub-validators is among
the errors returned. -/
theorem validateRemoteIP_errors (net : NetPkg) (value k : GoString) :
    errorCount (validateRemoteIP net (.str value) k)
      = some (if errorCount (validateCIDR net (.str value) k) ≠ some 0
                ∧ errorCount (validateIP net (.str value) k) ≠ some 0 then 1 else 0)
    ∧ (errorCount (validateIP net (.str value) k) = some 0
        ∨ errorCount (validateCIDR net (.str value) k) = some 0
        → errorCount (validateRemoteIP net (.str value) k) = some 0)
    ∧ (∀ r rc ri, validateRemoteIP net (.str value) k = .ok r
        → validateCIDR net (.str value) k = .ok rc
        → validateIP net (.str value) k = .ok ri
        → ∀ e ∈ r.errors, e ∉ rc.errors ∧ e ∉ ri.errors) := by
  have hr : validateRemoteIP net (.str value) k
      = .ok ⟨[], if ¬ (net.ParseCIDR value).isOk = true ∧ net.ParseIP value = none then
          [Errorf "%q must be a valid remote ip address (cidr or ip)" [.str k]]
          else []⟩ := by
    unfold validateRemoteIP
    rw [validateCIDR_errors, validateIP_errors]
    by_cases h1 : (net.ParseCIDR value).isOk = true <;>
      by_cases h2 : net.ParseIP value = none <;> simp [h1, h2, append]
  rw [hr, validateCIDR_errors, validateIP_errors]
  refine ⟨?_, ?_, ?_⟩
  · by_cases h1 : (net.ParseCIDR value).isOk = true <;>
      by_cases h2 : net.ParseIP value = none <;> simp [h1, h2, errorCount]
  · by_cases h1 : (net.ParseCIDR value).isOk = true <;>
      by_cases h2 : net.ParseIP value = none <;> simp [h1, h2, errorCount]
  · intro r rc ri er ec ei e he
    injection er with er
    injection ec with ec
    injection ei with ei
    subst er ec ei
    by_cases h1 : (net.ParseCIDR value).isOk = true <;>
      by_cases h2 : net.ParseIP value = none <;>
      simp [h1, h2, Errorf] at he ⊢
    simp [he]

/-! ## Enumerations -/

/-- Claim C8: for every list `validValues`, every string `input` and key `k`,
`validateAllowedStringValue(validValues)(input, k)` returns no error if and only
if `input` equals some element of `validValues`, and exactly one error
otherwise; with the empty list every input is rejected. -/
theorem validateAllowedStringValue_errors (validValues : List GoString)
    (input k : GoString) :
    (errorCount (validateAllowedStringValue validValues (.str input) k) = some 0
        ↔ ∃ s ∈ validValues, s = input)
    ∧ errorCount (validateAllowedStringValue validValues (.str input) k)
        = some (if input ∈ validValues then 0 else 1)
    ∧ errorCount (validateAllowedStringValue [] (.str input) k) = some 1 := by
  have hc : ∀ l : List GoString, errorCount (validateAllowedStringValue l (.str input) k)
      = some (if input ∈ l then 0 else 1) := by
    intro l
    unfold validateAllowedStringValue
    by_cases h : input ∈ l
    · simp [h, (allowed_loop_iff input l).2 h, errorCount]
    · have hl : validateAllowedStringValue.loop input l = false := by
        cases hb : validateAllowedStringValue.loop input l
        · rfl
        · exact absurd ((allowed_loop_iff input l).1 hb) h
      simp [h, hl, errorCount, append]
  refine ⟨?_, hc validValues, ?_⟩
  · rw [hc]
    by_cases h : input ∈ validValues <;> simp [h]
  · rw [hc]; simp

theorem enum_errorCount (m : GoMap) (value : GoString) (e : GoError) :
    errorCount (Except.ok ⟨[], if (!(m.lookup value).2) = true then append [] e else []⟩
      : Outcome) = some (if value ∈ m.keys then 0 else 1) := by
  by_cases h : value ∈ m.keys
  · simp [h, (GoMap_lookup_found_iff m value).2 h, errorCount]
  · have hl : (m.lookup value).2 = false := by
      cases hb : (m.lookup value).2
      · rfl
      · exact absurd ((GoMap_lookup_found_iff m value).1 hb) h
    simp [h, hl, errorCount, append]

/-- Claim C9: for every string `value` and key `k`,
`validateSecurityRuleDirection` returns no error iff `value` is "ingress" or
"egress", `validateSecurityRuleEtherType` iff it is "IPv4" or "IPv6",
`validateSecurityRuleProtocol` iff it is "icmp", "tcp" or "udp"; in every other
case, such as "TCP", "ipv4" or the empty string, each returns exactly one
error. -/
theorem validateSecurityRule_errors (value k : GoString) :
    errorCount (validateSecurityRuleDirection (.str value) k)
        = some (if value = lit "ingress" ∨ value = lit "egress" then 0 else 1)
    ∧ errorCount (validateSecurityRuleEtherType (.str value) k)
        = some (if value = lit "IPv4" ∨ value = lit "IPv6" then 0 else 1)
    ∧ errorCount (validateSecurityRuleProtocol (.str value) k)
        = some (if value = lit "icmp" ∨ value = lit "tcp" ∨ value = lit "udp" then 0 else 1)
    ∧ errorCount (validateSecurityRuleProtocol (.str (lit "TCP")) k) = some 1
    ∧ errorCount (validateSecurityRuleEtherType (.str (lit "ipv4")) k) = some 1
    ∧ errorCount (validateSecurityRuleDirection (.str (lit "")) k) = some 1
    ∧ errorCount (validateSecurityRuleEtherType (.str (lit "")) k) = some 1
    ∧ errorCount (validateSecurityRuleProtocol (.str (lit "")) k) = some 1 := by
  refine ⟨?_, ?_, ?_, rfl, rfl, rfl, rfl, rfl⟩
  · unfold validateSecurityRuleDirection
    simp only []
    rw [enum_errorCount]
    simp [GoMap.keys]
  · unfold validateSecurityRuleEtherType
    simp only []
    rw [enum_errorCount]
    simp [GoMap.keys]
  · unfold validateSecurityRuleProtocol
    simp only []
    rw [enum_errorCount]
    simp [GoMap.keys]

/-! ## More integer ranges -/

/-- Claim C11: for every integer `m` and key `k`, `validateMaxConn(m, k)` returns
no error when `1 <= m <= 64000` and exactly one error otherwise; 0 and 64001 are
rejected, 1 and 64000 are accepted. -/
theorem validateMaxConn_errorCount (m : Int) (k : GoString) :
    errorCount (validateMaxConn (.int m) k) = some (if 1 ≤ m ∧ m ≤ 64000 then 0 else 1)
    ∧ errorCount (validateMaxConn (.int 0) k) = some 1
    ∧ errorCount (validateMaxConn (.int 64001) k) = some 1
    ∧ errorCount (validateMaxConn (.int 1) k) = some 0
    ∧ errorCount (validateMaxConn (.int 64000) k) = some 0 := by
  have hc : ∀ n : Int, errorCount (validateMaxConn (.int n) k)
      = some (if 1 ≤ n ∧ n ≤ 64000 then 0 else 1) := by
    intro n
    unfold validateMaxConn
    by_cases h : n < 1 ∨ n > 64000
    · have h2 : ¬ (1 ≤ n ∧ n ≤ 64000) := by omega
      simp [h, h2, errorCount, append]
    · have h2 : 1 ≤ n ∧ n ≤ 64000 := by omega
      simp [h, h2, errorCount]
  refine ⟨hc m, ?_, ?_, ?_, ?_⟩
  · rw [hc]; decide
  · rw [hc]; decide
  · rw [hc]; decide
  · rw [hc]; decide

/-- Claim C12: for every integer `n` and key `k`, `validateAppInstance(n, k)`
returns no error if and only if `n >= 0`, so 0 is accepted, and exactly one
error for every negative `n`. -/
theorem validateAppInstance_errorCount (n : Int) (k : GoString) :
    (errorCount (validateAppInstance (.int n) k) = some 0 ↔ 0 ≤ n)
    ∧ errorCount (validateAppInstance (.int n) k) = some (if n < 0 then 1 else 0)
    ∧ errorCount (validateAppInstance (.int 0) k) = some 0 := by
  have hc : ∀ i : Int, errorCount (validateAppInstance (.int i) k)
      = some (if i < 0 then 1 else 0) := by
    intro i
    unfold validateAppInstance
    by_cases h : i < 0 <;> simp [h, errorCount, append]
  refine ⟨?_, hc n, ?_⟩
  · rw [hc]
    by_cases h : n < 0
    · have h2 : ¬ 0 ≤ n := by omega
      simp [h, h2]
    · have h2 : 0 ≤ n := by omega
      simp [h, h2]
  · rw [hc]; decide

/-! ## Length limits -/

theorem validateServiceTags_count (value k : GoString) :
    errorCount (validateServiceTags (.str value) k)
      = some (if len value ≤ 2048 then 0 else 1) := by
  unfold validateServiceTags
  by_cases h : len value > 2048
  · have h2 : ¬ len value ≤ 2048 := by omega
    simp [h, h2, errorCount, append]
  · have h2 : len value ≤ 2048 := by omega
    simp [h, h2, errorCount]

theorem validateNotes_count (value k : GoString) :
    errorCount (validateNotes (.str value) k)
      = some (if len value ≤ 1000 then 0 else 1) := by
  unfold validateNotes
  by_cases h : len value > 1000
  · have h2 : ¬ len value ≤ 1000 := by omega
    simp [h, h2, errorCount, append]
  · have h2 : len value ≤ 1000 := by omega
    simp [h, h2, errorCount]

theorem len_replicate (n : Nat) (b : Byte) : len (List.replicate n b) = n := by
  simp [len]

/-- Claim C13: for every string `value` and key `k`, `validateServiceTags`
returns no error iff the number of bytes of `value` is at most 2048, and
`validateNotes` iff it is at most 1000; each returns exactly one error
otherwise; lengths 2048 and 1000 are accepted, 2049 and 1001 rejected. -/
theorem validateServiceTags_validateNotes_length (value k : GoString) :
    (errorCount (validateServiceTags (.str value) k) = some 0 ↔ value.length ≤ 2048)
    ∧ (errorCount (validateNotes (.str value) k) = some 0 ↔ value.length ≤ 1000)
    ∧ errorCount (validateServiceTags (.str value) k)
        = some (if value.length ≤ 2048 then 0 else 1)
    ∧ errorCount (validateNotes (.str value) k)
        = some (if value.length ≤ 1000 then 0 else 1)
    ∧ errorCount (validateServiceTags (.str (List.replicate 2048 120)) k) = some 0
    ∧ errorCount (validateServiceTags (.str (List.replicate 2049 120)) k) = some 1
    ∧ errorCount (validateNotes (.str (List.replicate 1000 120)) k) = some 0
    ∧ errorCount (validateNotes (.str (List.replicate 1001 120)) k) = some 1 := by
  have hl : len value = value.length := rfl
  refine ⟨?_, ?_, ?_, ?_, ?_, ?_, ?_, ?_⟩
  · rw [validateServiceTags_count, hl]
    by_cases h : value.length ≤ 2048 <;> simp [h]
  · rw [validateNotes_count, hl]
    by_cases h : value.length ≤ 1000 <;> simp [h]
  · rw [validateServiceTags_count, hl]
  · rw [validateNotes_count, hl]
  · rw [validateServiceTags_count, len_replicate]; decide
  · rw [validateServiceTags_count, len_replicate]; decide
  · rw [validateNotes_count, len_replicate]; decide
  · rw [validateNotes_count, len_replicate]; decide

/-! ## Domain names -/

/-- Claim C14: for every string `value` and key `k`, `validateDomainName(value, k)`
returns no error if and only if `value` contains the character ".", and exactly
one error otherwise; "example" gives one error and "example.com" gives none. -/
theorem validateDomainName_errors (value k : GoString) :
    (errorCount (validateDomainName (.str value) k) = some 0
        ↔ ∃ before after, value = before ++ lit "." ++ after)
    ∧ (errorCount (validateDomainName (.str value) k) = some 0 ↔ (46 : Byte) ∈ value)
    ∧ (errorCount (validateDomainName (.str value) k) = some 0
        ∨ errorCount (validateDomainName (.str value) k) = some 1)
    ∧ errorCount (validateDomainName (.str (lit "example")) k) = some 1
    ∧ errorCount (validateDomainName (.str (lit "example.com")) k) = some 0 := by
  have hinf : (∃ before after, value = before ++ lit "." ++ after) ↔ lit "." <:+: value :=
    ⟨fun ⟨a, b, hr⟩ => ⟨a, b, hr.symm⟩, fun ⟨a, b, hr⟩ => ⟨a, b, hr.symm⟩⟩
  have hdot : lit "." = [(46 : Byte)] := by decide
  have hmem : lit "." <:+: value ↔ (46 : Byte) ∈ value := by
    rw [hdot]
    constructor
    · rintro ⟨a, b, hr⟩
      rw [← hr]; simp
    · intro h
      obtain ⟨a, b, hr⟩ := List.append_of_mem h
      exact ⟨a, b, by simp [hr]⟩
  have hc : errorCount (validateDomainName (.str value) k)
      = some (if lit "." <:+: value then 0 else 1) := by
    unfold validateDomainName
    by_cases h : lit "." <:+: value
    · simp [h, (Contains_iff value (lit ".")).2 h, errorCount]
    · have hb : Contains value (lit ".") = false := by
        cases hb : Contains value (lit ".")
        · rfl
        · exact absurd ((Contains_iff value (lit ".")).1 hb) h
      simp [h, hb, errorCount, append]
  refine ⟨?_, ?_, ?_, rfl, rfl⟩
  · rw [hc, hinf]
    by_cases h : lit "." <:+: value <;> simp [h]
  · rw [hc, ← hmem]
    by_cases h : lit "." <:+: value <;> simp [h]
  · rw [hc]
    by_cases h : lit "." <:+: value <;> simp [h]

/-! ## Warnings, panics and the key -/

theorem ok_of_no_warnings (o : Outcome) (h : ∃ es, o = .ok ⟨[], es⟩) : ∃ r, o = .ok r :=
  h.elim fun es he => ⟨⟨[], es⟩, he⟩

theorem validateRoutePath_ok (value k : GoString) :
    ∃ es, validateRoutePath (.str value) k = .ok ⟨[], es⟩ := by
  unfold validateRoutePath
  by_cases h : value = lit ""
  · simp only [h, if_true]; exact ⟨_, rfl⟩
  · simp only [h, if_false]; exact ⟨_, rfl⟩

theorem validatePublicBandwidth_ok (n : Int) (k : GoString) :
    ∃ es, validatePublicBandwidth (.int n) k = .ok ⟨[], es⟩ := by
  unfold validatePublicBandwidth
  by_cases h : n < 0
  · simp only [h, if_true]; exact ⟨_, rfl⟩
  · simp only [h, if_false]
    cases hl : validatePublicBandwidth.loop n [250, 1000, 5000, 10000, 20000]
    · exact ⟨_, rfl⟩
    · exact ⟨_, rfl⟩

theorem validateMaxConn_ok (n : Int) (k : GoString) :
    ∃ es, validateMaxConn (.int n) k = .ok ⟨[], es⟩ := by
  unfold validateMaxConn
  by_cases h : n < 1 ∨ n > 64000
  · simp only [h, if_true]; exact ⟨_, rfl⟩
  · simp only [h, if_false]; exact ⟨_, rfl⟩

theorem validateRemoteIP_ok (net : NetPkg) (value k : GoString) :
    ∃ es, validateRemoteIP net (.str value) k = .ok ⟨[], es⟩ := by
  unfold validateRemoteIP
  rw [validateCIDR_errors, validateIP_errors]
  exact ⟨_, rfl⟩

/-- Claim C15: every validator of the file, the closures returned by
`validateAllowedStringValue` and `validatePortRange` and `validateRemoteIP`
included, returns an empty sequence of warnings on every input of the kind it
accepts, a string for the string validators and an integer for the integer
validators. -/
theorem validators_no_warnings (validValues : List GoString) (start end_ : Int)
    (net : NetPkg) (fs : FsPkg) (value : GoString) (n : Int) (k : GoString) :
    (∃ es, validateServiceTags (.str value) k = .ok ⟨[], es⟩)
    ∧ (∃ es, validateAllowedStringValue validValues (.str value) k = .ok ⟨[], es⟩)
    ∧ (∃ es, validateRoutePath (.str value) k = .ok ⟨[], es⟩)
    ∧ (∃ es, validateRoutePort (.int n) k = .ok ⟨[], es⟩)
    ∧ (∃ es, validateAppPort (.int n) k = .ok ⟨[], es⟩)
    ∧ (∃ es, validatePortRange start end_ (.int n) k = .ok ⟨[], es⟩)
    ∧ (∃ es, validateDomainName (.str value) k = .ok ⟨[], es⟩)
    ∧ (∃ es, validateAppInstance (.int n) k = .ok ⟨[], es⟩)
    ∧ (∃ es, validateAppZipPath fs (.str value) k = .ok ⟨[], es⟩)
    ∧ (∃ es, validateNotes (.str value) k = .ok ⟨[], es⟩)
    ∧ (∃ es, validatePublicBandwidth (.int n) k = .ok ⟨[], es⟩)
    ∧ (∃ es, validateMaxConn (.int n) k = .ok ⟨[], es⟩)
    ∧ (∃ es, validateWeight (.int n) k = .ok ⟨[], es⟩)
    ∧ (∃ es, validateSecurityRuleDirection (.str value) k = .ok ⟨[], es⟩)
    ∧ (∃ es, validateSecurityRuleEtherType (.str value) k = .ok ⟨[], es⟩)
    ∧ (∃ es, validateIP net (.str value) k = .ok ⟨[], es⟩)
    ∧ (∃ es, validateCIDR net (.str value) k = .ok ⟨[], es⟩)
    ∧ (∃ es, validateRemoteIP net (.str value) k = .ok ⟨[], es⟩)
    ∧ (∃ es, validateSecurityRuleProtocol (.str value) k = .ok ⟨[], es⟩) := by
  exact ⟨⟨_, rfl⟩, ⟨_, rfl⟩, validateRoutePath_ok value k, ⟨_, rfl⟩, ⟨_, rfl⟩, ⟨_, rfl⟩,
    ⟨_, rfl⟩, ⟨_, rfl⟩, ⟨_, rfl⟩, ⟨_, rfl⟩, validatePublicBandwidth_ok n k,
    validateMaxConn_ok n k, ⟨_, rfl⟩, ⟨_, rfl⟩, ⟨_, rfl⟩, ⟨_, rfl⟩, ⟨_, rfl⟩,
    validateRemoteIP_ok net value k, ⟨_, rfl⟩⟩

/-- Claim C16, counterexample: `validateServiceTags` given the integer 5 and the
closure of `validatePortRange(1, 10)` given the string "80" panic in their type
assertion; neither returns a result. -/
theorem validators_wrong_kind_panics :
    validateServiceTags (.int 5) (lit "tags") = .error .typeAssertion
    ∧ validatePortRange 1 10 (.str (lit "80")) (lit "port") = .error .typeAssertion
    ∧ ¬ (∃ r, validateServiceTags (.int 5) (lit "tags") = .ok r)
    ∧ ¬ (∃ r, validatePortRange 1 10 (.str (lit "80")) (lit "port") = .ok r) := by
  refine ⟨rfl, rfl, ?_, ?_⟩
  · rintro ⟨r, hr⟩
    cases hr
  · rintro ⟨r, hr⟩
    cases hr

/-- Claim C16, amended: every validator returns a result and does not panic on
every value of the kind it expects, a string for the string validators and an
integer for the integer validators; on a value of the other kind its type
assertion panics, and nothing is reported through the returned errors. -/
theorem validators_result_or_panic (validValues : List GoString) (start end_ : Int)
    (net : NetPkg) (fs : FsPkg) (value : GoString) (n : Int) (k : GoString) :
    ((∃ r, validateServiceTags (.str value) k = .ok r)
      ∧ validateServiceTags (.int n) k = .error .typeAssertion)
    ∧ ((∃ r, validateAllowedStringValue validValues (.str value) k = .ok r)
      ∧ validateAllowedStringValue validValues (.int n) k = .error .typeAssertion)
    ∧ ((∃ r, validateRoutePath (.str value) k = .ok r)
      ∧ validateRoutePath (.int n) k = .error .typeAssertion)
    ∧ ((∃ r, validateRoutePort (.int n) k = .ok r)
      ∧ validateRoutePort (.str value) k = .error .typeAssertion)
    ∧ ((∃ r, validateAppPort (.int n) k = .ok r)
      ∧ validateAppPort (.str value) k = .error .typeAssertion)
    ∧ ((∃ r, validatePortRange start end_ (.int n) k = .ok r)
      ∧ validatePortRange start end_ (.str value) k = .error .typeAssertion)
    ∧ ((∃ r, validateDomainName (.str value) k = .ok r)
      ∧ validateDomainName (.int n) k = .error .typeAssertion)
    ∧ ((∃ r, validateAppInstance (.int n) k = .ok r)
      ∧ validateAppInstance (.str value) k = .error .typeAssertion)
    ∧ ((∃ r, validateAppZipPath fs (.str value) k = .ok r)
      ∧ validateAppZipPath fs (.int n) k = .error .typeAssertion)
    ∧ ((∃ r, validateNotes (.str value) k = .ok r)
      ∧ validateNotes (.int n) k = .error .typeAssertion)
    ∧ ((∃ r, validatePublicBandwidth (.int n) k = .ok r)
      ∧ validatePublicBandwidth (.str value) k = .error .typeAssertion)
    ∧ ((∃ r, validateMaxConn (.int n) k = .ok r)
      ∧ validateMaxConn (.str value) k = .error .typeAssertion)
    ∧ ((∃ r, validateWeight (.int n) k = .ok r)
      ∧ validateWeight (.str value) k = .error .typeAssertion)
    ∧ ((∃ r, validateSecurityRuleDirection (.str value) k = .ok r)
      ∧ validateSecurityRuleDirection (.int n) k = .error .typeAssertion)
    ∧ ((∃ r, validateSecurityRuleEtherType (.str value) k = .ok r)
      ∧ validateSecurityRuleEtherType (.int n) k = .error .typeAssertion)
    ∧ ((∃ r, validateIP net (.str value) k = .ok r)
      ∧ validateIP net (.int n) k = .error .typeAssertion)
    ∧ ((∃ r, validateCIDR net (.str value) k = .ok r)
      ∧ validateCIDR net (.int n) k = .error .typeAssertion)
    ∧ ((∃ r, validateRemoteIP net (.str value) k = .ok r)
      ∧ validateRemoteIP net (.int n) k = .error .typeAssertion)
    ∧ ((∃ r, validateSecurityRuleProtocol (.str value) k = .ok r)
      ∧ validateSecurityRuleProtocol (.int n) k = .error .typeAssertion) := by
  refine ⟨⟨⟨_, rfl⟩, rfl⟩, ⟨⟨_, rfl⟩, rfl⟩,
    ⟨ok_of_no_warnings _ (validateRoutePath_ok value k), rfl⟩,
    ⟨⟨_, rfl⟩, rfl⟩, ⟨⟨_, rfl⟩, rfl⟩, ⟨⟨_, rfl⟩, rfl⟩, ⟨⟨_, rfl⟩, rfl⟩, ⟨⟨_, rfl⟩, rfl⟩,
    ⟨⟨_, rfl⟩, rfl⟩, ⟨⟨_, rfl⟩, rfl⟩,
    ⟨ok_of_no_warnings _ (validatePublicBandwidth_ok n k), rfl⟩,
    ⟨ok_of_no_warnings _ (validateMaxConn_ok n k), rfl⟩,
    ⟨⟨_, rfl⟩, rfl⟩, ⟨⟨_, rfl⟩, rfl⟩, ⟨⟨_, rfl⟩, rfl⟩, ⟨⟨_, rfl⟩, rfl⟩, ⟨⟨_, rfl⟩, rfl⟩,
    ⟨ok_of_no_warnings _ (validateRemoteIP_ok net value k), rfl⟩,
    ⟨⟨_, rfl⟩, rfl⟩⟩

/-- Claim C20: for every validator other than `validateAppZipPath`, every value
and every two keys `k1` and `k2`, the number of errors returned with `k1` equals
the number returned with `k2`, and the call panics with one key exactly when it
does with the other: the key has no part in whether a value is accepted. -/
theorem validators_key_independent (validValues : List GoString) (start end_ : Int)
    (net : NetPkg) (v : Value) (k1 k2 : GoString) :
    errorCount (validateServiceTags v k1) = errorCount (validateServiceTags v k2)
    ∧ errorCount (validateAllowedStringValue validValues v k1)
        = errorCount (validateAllowedStringValue validValues v k2)
    ∧ errorCount (validateRoutePath v k1) = errorCount (validateRoutePath v k2)
    ∧ errorCount (validateRoutePort v k1) = errorCount (validateRoutePort v k2)
    ∧ errorCount (validateAppPort v k1) = errorCount (validateAppPort v k2)
    ∧ errorCount (validatePortRange start end_ v k1)
        = errorCount (validatePortRange start end_ v k2)
    ∧ errorCount (validateDomainName v k1) = errorCount (validateDomainName v k2)
    ∧ errorCount (validateAppInstance v k1) = errorCount (validateAppInstance v k2)
    ∧ errorCount (validateNotes v k1) = errorCount (validateNotes v k2)
    ∧ errorCount (validatePublicBandwidth v k1) = errorCount (validatePublicBandwidth v k2)
    ∧ errorCount (validateMaxConn v k1) = errorCount (validateMaxConn v k2)
    ∧ errorCount (validateWeight v k1) = errorCount (validateWeight v k2)
    ∧ errorCount (validateSecurityRuleDirection v k1)
        = errorCount (validateSecurityRuleDirection v k2)
    ∧ errorCount (validateSecurityRuleEtherType v k1)
        = errorCount (validateSecurityRuleEtherType v k2)
    ∧ errorCount (validateIP net v k1) = errorCount (validateIP net v k2)
    ∧ errorCount (validateCIDR net v k1) = errorCount (validateCIDR net v k2)
    ∧ errorCount (validateRemoteIP net v k1) = errorCount (validateRemoteIP net v k2)
    ∧ errorCount (validateSecurityRuleProtocol v k1)
        = errorCount (validateSecurityRuleProtocol v k2) := by
  cases v with
  | str value =>
    refine ⟨?_, ?_, ?_, rfl, rfl, rfl, ?_, rfl, ?_, rfl, rfl, rfl, ?_, ?_, ?_, ?_, ?_, ?_⟩
    · rw [validateServiceTags_count, validateServiceTags_count]
    · unfold validateAllowedStringValue
      cases hl : validateAllowedStringValue.loop value validValues <;>
        simp [hl, errorCount, append]
    · rw [errorCount_eq_length _ _ (validateRoutePath_errors value k1),
        errorCount_eq_length _ _ (validateRoutePath_errors value k2)]
      by_cases h0 : value = [] <;>
      by_cases h1 : len value < 2 ∨ len value > 128 <;>
      by_cases h2 : lit "/" <+: value <;>
      by_cases h3 : lit "?" <:+: value <;> simp [h0, h1, h2, h3]
    · unfold validateDomainName
      cases hl : Contains value (lit ".") <;> simp [hl, errorCount, append]
    · rw [validateNotes_count, validateNotes_count]
    · unfold validateSecurityRuleDirection
      simp only []
      rw [enum_errorCount, enum_errorCount]
    · unfold validateSecurityRuleEtherType
      simp only []
      rw [enum_errorCount, enum_errorCount]
    · rw [validateIP_errors, validateIP_errors]
      by_cases h : net.ParseIP value = none <;> simp [h, errorCount]
    · rw [validateCIDR_errors, validateCIDR_errors]
      by_cases h : (net.ParseCIDR value).isOk = true <;> simp [h, errorCount]
    · unfold validateRemoteIP
      rw [validateCIDR_errors, validateIP_errors, validateCIDR_errors, validateIP_errors]
      by_cases h1 : (net.ParseCIDR value).isOk = true <;>
        by_cases h2 : net.ParseIP value = none <;> simp [h1, h2, errorCount, append]
    · unfold validateSecurityRuleProtocol
      simp only []
      rw [enum_errorCount, enum_errorCount]
  | int n =>
    refine ⟨rfl, rfl, rfl, ?_, ?_, ?_, rfl, ?_, rfl, ?_, ?_, ?_, rfl, rfl, rfl, rfl, rfl, rfl⟩
    · unfold validateRoutePort validatePortRange
      by_cases h : n < 1024 ∨ n > 65535 <;> simp [h, errorCount, append]
    · unfold validateAppPort validatePortRange
      by_cases h : n < 1024 ∨ n > 65535 <;> simp [h, errorCount, append]
    · unfold validatePortRange
      by_cases h : n < start ∨ n > end_ <;> simp [h, errorCount, append]
    · unfold validateAppInstance
      by_cases h : n < 0 <;> simp [h, errorCount, append]
    · unfold validatePublicBandwidth
      by_cases h : n < 0
      · simp [h, errorCount, append]
      · cases hl : validatePublicBandwidth.loop n [250, 1000, 5000, 10000, 20000] <;>
          simp [h, hl, errorCount, append]
    · unfold validateMaxConn
      by_cases h : n < 1 ∨ n > 64000 <;> simp [h, errorCount, append]
    · unfold validateWeight
      by_cases h : n < 0 ∨ n > 100 <;> simp [h, errorCount, append]

/-! ## Addresses with Go's parsers -/

theorem GoNet_parse_examples (parseIPv6 : GoString → Bool → Option IP × GoString) :
    GoNet.parseIPv4 (lit "10.0.0.1") = some (GoNet.IPv4 10 0 0 1)
    ∧ GoNet.parseIPv4 (lit "256.0.0.1") = none
    ∧ GoNet.parseIPv4 (lit "1.2.3") = none
    ∧ GoNet.parseIPv4 (lit "1.2.3.4.") = none
    ∧ GoNet.ParseIP parseIPv6 (lit "10.0.0.0/24") = none
    ∧ GoNet.ParseCIDR parseIPv6 (lit "10.0.0.0/33") = .error "invalid CIDR address"
    ∧ GoNet.ParseCIDR parseIPv6 (lit "10.1.2.3/24")
        = .ok (GoNet.IPv4 10 1 2 3, ⟨[10, 1, 2, 0], [255, 255, 255, 0]⟩)
    ∧ GoNet.ParseCIDR parseIPv6 (lit "10.1.2.255/23")
        = .ok (GoNet.IPv4 10 1 2 255, ⟨[10, 1, 2, 0], [255, 255, 254, 0]⟩) :=
  ⟨rfl, rfl, rfl, rfl, rfl, rfl, rfl, rfl⟩

/-- Claim C17: with Go's `net.ParseIP` and `net.ParseCIDR`, `validateIP("10.0.0.1")`,
`validateCIDR("10.0.0.0/24")` and `validateRemoteIP("10.0.0.0/24")` return no
error, while `validateIP("not-an-ip")` and `validateRemoteIP("garbage")` each
return exactly one error. -/
theorem validate_address_examples (parseIPv6 : GoString → Bool → Option IP × GoString)
    (k : GoString) :
    errorCount (validateIP (GoNet.pkg parseIPv6) (.str (lit "10.0.0.1")) k) = some 0
    ∧ errorCount (validateCIDR (GoNet.pkg parseIPv6) (.str (lit "10.0.0.0/24")) k) = some 0
    ∧ errorCount (validateRemoteIP (GoNet.pkg parseIPv6) (.str (lit "10.0.0.0/24")) k)
        = some 0
    ∧ errorCount (validateIP (GoNet.pkg parseIPv6) (.str (lit "not-an-ip")) k) = some 1
    ∧ errorCount (validateRemoteIP (GoNet.pkg parseIPv6) (.str (lit "garbage")) k)
        = some 1 := by
  refine ⟨rfl, rfl, rfl, rfl, rfl⟩

/-! ## Bytes and characters -/

theorem len_lit_replicate (n : Nat) (c : Char) :
    len (lit (String.mk (List.replicate n c))) = n * (utf8EncodeChar c).length := by
  unfold len lit
  induction n with
  | zero => simp
  | succ m ih =>
    simp only [List.replicate_succ, List.flatMap_cons, List.length_append] at ih ⊢
    rw [ih]
    ring

/-- Claim C18, the code at the failing input: the string of 501 letters "é"
(U+00E9) has 501 characters, at most 1000, and 1002 bytes, and `validateNotes`
returns one error for it. -/
theorem validateNotes_counts_bytes :
    (String.mk (List.replicate 501 (Char.ofNat 0xE9))).length = 501
    ∧ len (lit (String.mk (List.replicate 501 (Char.ofNat 0xE9)))) = 1002
    ∧ errorCount (validateNotes
        (.str (lit (String.mk (List.replicate 501 (Char.ofNat 0xE9))))) (lit "notes"))
        = some 1 := by
  have hl : len (lit (String.mk (List.replicate 501 (Char.ofNat 0xE9)))) = 1002 := by
    rw [len_lit_replicate]
    decide
  have hn : (String.mk (List.replicate 501 (Char.ofNat 0xE9))).length = 501 := by
    show (List.replicate 501 (Char.ofNat 0xE9)).length = 501
    exact List.length_replicate _ _
  refine ⟨hn, hl, ?_⟩
  rw [validateNotes_count, hl]
  decide

/-! ## The three checks of a route path -/

/-- Claim C19: for every non-empty string `value` and key `k`, the errors of
`validateRoutePath(value, k)` are, in this order, the length error if the length
is not in [2,128], the prefix error if `value` does not start with "/", and the
"?" error if `value` contains "?"; their number is the number of violated rules,
between 0 and 3. -/
theorem validateRoutePath_accumulates (value k : GoString) (h : value ≠ lit "") :
    errorsOf (validateRoutePath (.str value) k)
      = some ((if 2 ≤ len value ∧ len value ≤ 128 then []
            else [Errorf "%q (%q) must contain from 2 to 128 characters "
              [.str k, .str value]])
          ++ (if lit "/" <+: value then []
            else [Errorf "%q (%q) must start with a forward slash '/'"
              [.str k, .str value]])
          ++ (if lit "?" <:+: value then
              [Errorf "%q (%q) must not contain a '?'" [.str k, .str value]]
            else []))
    ∧ errorCount (validateRoutePath (.str value) k)
      = some ((if 2 ≤ len value ∧ len value ≤ 128 then 0 else 1)
          + (if lit "/" <+: value then 0 else 1)
          + (if lit "?" <:+: value then 1 else 0))
    ∧ (∃ c, errorCount (validateRoutePath (.str value) k) = some c ∧ c ≤ 3) := by
  have h0 : ¬ value = [] := h
  have he := validateRoutePath_errors value k
  simp only [h0, if_false] at he
  have hc : errorCount (validateRoutePath (.str value) k)
      = some ((if 2 ≤ len value ∧ len value ≤ 128 then 0 else 1)
          + (if lit "/" <+: value then 0 else 1)
          + (if lit "?" <:+: value then 1 else 0)) := by
    rw [errorCount_eq_length _ _ he]
    by_cases h1 : len value < 2 ∨ len value > 128
    · have h1n : ¬ (2 ≤ len value ∧ len value ≤ 128) := by omega
      by_cases h2 : lit "/" <+: value <;> by_cases h3 : lit "?" <:+: value <;>
        simp [h1, h1n, h2, h3]
    · have h1n : 2 ≤ len value ∧ len value ≤ 128 := by omega
      by_cases h2 : lit "/" <+: value <;> by_cases h3 : lit "?" <:+: value <;>
        simp [h1, h1n, h2, h3]
  refine ⟨?_, hc, ?_⟩
  · rw [he]
    by_cases h1 : len value < 2 ∨ len value > 128
    · have h1n : ¬ (2 ≤ len value ∧ len value ≤ 128) := by omega
      simp [h1, h1n]
    · have h1n : 2 ≤ len value ∧ len value ≤ 128 := by omega
      simp [h1, h1n]
  · refine ⟨_, hc, ?_⟩
    by_cases h1 : 2 ≤ len value ∧ len value ≤ 128 <;>
      by_cases h2 : lit "/" <+: value <;> by_cases h3 : lit "?" <:+: value <;>
      simp [h1, h2, h3]

/-- Claim C19, witness: the one-byte string "?" is not empty and breaks the three
rules; `validateRoutePath` returns its three errors in the order length,
prefix, "?". -/
theorem validateRoutePath_accumulates_witness :
    lit "?" ≠ lit ""
    ∧ errorsOf (validateRoutePath (.str (lit "?")) (lit "path"))
      = some [Errorf "%q (%q) must contain from 2 to 128 characters "
            [.str (lit "path"), .str (lit "?")],
          Errorf "%q (%q) must start with a forward slash '/'"
            [.str (lit "path"), .str (lit "?")],
          Errorf "%q (%q) must not contain a '?'" [.str (lit "path"), .str (lit "?")]]
    ∧ errorCount (validateRoutePath (.str (lit "?")) (lit "path")) = some 3 := by
  have hne : lit "?" ≠ lit "" := by decide
  have hw := validateRoutePath_accumulates (lit "?") (lit "path") hne
  refine ⟨hne, ?_, ?_⟩
  · rw [hw.1]; decide
  · rw [hw.2.1]; decide
end Ibm
